import Mathlib

/-!
# Verification of `zcode/lengthfieldframedecoder.go`

A shallow embedding of the length-field frame decoder of package `zcode`
(`Timeclimber/zinx`).  Bytes are modelled as `Nat` values below 256, the
accumulation buffer `bytes.Buffer` as a `List Nat` holding its logical
(readable) contents, Go's `int`/`int64` as `Int`, and the Go panics of
`failOnNegativeLengthField`, `failOnFrameLengthLessThanInitialBytesToStrip`
and the unsupported-width case of `getUnadjustedFrameLength` as values of an
explicit error type that the decode step returns alongside the state
(a Go panic unwinds out of `Decode`, leaving the receiver's mutated fields
behind, so the step returns the mutated state together with the error).

One modelling decision needs calling out.  `getUnadjustedFrameLength` slices
`buf.Bytes()[offset : offset+length]` without checking that the buffer holds
`offset+length` readable bytes; in Go this slice reaches into the buffer's
spare capacity, whose bytes are zero for a freshly grown `bytes.Buffer`
(Go zero-fills new allocations).  The model reads such out-of-range bytes
as `0` (`List.getD _ _ 0`), which reproduces the concrete Go behaviour in
every run used below; the general theorems about `decode` additionally
assume the read stays within the readable bytes, where the model is exact
regardless of allocation history.
-/

namespace Zcode

/-- `binary.ByteOrder`: the two orders used by the source. -/
inductive ByteOrder where
  | bigEndian
  | littleEndian
deriving DecidableEq, Repr

/-- The panics of the source, as explicit error values:
`failOnNegativeLengthField` (carries the raw length-field value),
`failOnFrameLengthLessThanInitialBytesToStrip` (frame length and strip count),
and the `default` branch of `getUnadjustedFrameLength` (the width). -/
inductive DecodeError where
  | negativeLengthField : Int → DecodeError
  | frameLengthLessThanInitialBytesToStrip : Int → Int → DecodeError
  | unsupportedLengthFieldLength : Int → DecodeError
deriving DecidableEq, Repr

/-- The `EncoderData` struct.  `in` is a Lean keyword, so the accumulation
buffer field is named `inBuf`; it holds the readable bytes of the Go
`bytes.Buffer`. -/
structure EncoderData where
  byteOrder : ByteOrder
  maxFrameLength : Int
  lengthFieldOffset : Int
  lengthFieldLength : Int
  lengthFieldEndOffset : Int
  lengthAdjustment : Int
  initialBytesToStrip : Int
  failFast : Bool
  discardingTooLongFrame : Bool
  tooLongFrameLength : Int
  bytesToDiscard : Int
  inBuf : List Nat
deriving DecidableEq, Repr

/-- `NewLengthFieldFrameDecoder`.  Fields the Go constructor leaves unset get
Go's zero values: `failFast = false`, `discardingTooLongFrame = false`,
`tooLongFrameLength = 0`, `bytesToDiscard = 0`; `byteOrder` is set to
big-endian and the buffer starts empty. -/
def NewLengthFieldFrameDecoder (maxFrameLength lengthFieldOffset lengthFieldLength
    lengthAdjustment initialBytesToStrip : Int) : EncoderData :=
  { byteOrder := .bigEndian
    maxFrameLength := maxFrameLength
    lengthFieldOffset := lengthFieldOffset
    lengthFieldLength := lengthFieldLength
    lengthFieldEndOffset := lengthFieldOffset + lengthFieldLength
    lengthAdjustment := lengthAdjustment
    initialBytesToStrip := initialBytesToStrip
    failFast := false
    discardingTooLongFrame := false
    tooLongFrameLength := 0
    bytesToDiscard := 0
    inBuf := [] }

/-- `fail`: the whole body of the source function is commented out, so it
returns the state unchanged and signals nothing. -/
def fail (this : EncoderData) (frameLength : Int) : EncoderData :=
  let _ := frameLength
  this

/-- `failIfNecessary`. -/
def failIfNecessary (this : EncoderData) (firstDetectionOfTooLongFrame : Bool) :
    EncoderData :=
  if this.bytesToDiscard = 0 then
    let tooLongFrameLength := this.tooLongFrameLength
    let this := { this with tooLongFrameLength := 0, discardingTooLongFrame := false }
    if !this.failFast || firstDetectionOfTooLongFrame then
      fail this tooLongFrameLength
    else
      this
  else
    if this.failFast && firstDetectionOfTooLongFrame then
      fail this this.tooLongFrameLength
    else
      this

/-- `discardingTooLongFrameFunc`.  The source computes
`min(bytesToDiscard, buffer.Len())` and then overwrites the result with the
constant `2` (`localBytesToDiscard = 2`), so two bytes are dropped per step;
`bytes.Buffer.Next` drops at most what the buffer holds (`List.drop`). -/
def discardingTooLongFrameFunc (this : EncoderData) : EncoderData :=
  let bytesToDiscard := this.bytesToDiscard
  let localBytesToDiscard := min bytesToDiscard (this.inBuf.length : Int)
  let _ := localBytesToDiscard
  let localBytesToDiscard : Int := 2
  let this := { this with inBuf := this.inBuf.drop localBytesToDiscard.toNat }
  let bytesToDiscard := bytesToDiscard - localBytesToDiscard
  let this := { this with bytesToDiscard := bytesToDiscard }
  failIfNecessary this false

/-- Two's-complement reinterpretation of a `w`-bit unsigned value, as done by
`binary.Read` into `int16`/`int32`/`int64`. -/
def toSigned (w : Nat) (v : Nat) : Int :=
  if v < 2 ^ (w - 1) then (v : Int) else (v : Int) - 2 ^ w

/-- `getUnadjustedFrameLength`.  `b i` is byte `offset + i` of the buffer,
read as `0` beyond the readable bytes (see the module comment: the source
slices into the buffer's spare capacity there, which is zero for a freshly
grown buffer).  Widths 2, 4 and 8 are read as signed two's-complement values
(`int16`/`int32`/`int64`), width 1 as an unsigned byte, width 3 by unsigned
byte composition; any other width is the `default` panic. -/
def getUnadjustedFrameLength (buf : List Nat) (offset length : Int)
    (order : ByteOrder) : Except DecodeError Int :=
  let b : Nat → Nat := fun i => buf.getD (offset.toNat + i) 0
  if length = 1 then
    .ok (b 0 : Int)
  else if length = 2 then
    match order with
    | .bigEndian => .ok (toSigned 16 (b 0 * 256 + b 1))
    | .littleEndian => .ok (toSigned 16 (b 1 * 256 + b 0))
  else if length = 3 then
    match order with
    | .bigEndian => .ok ((b 2 + b 1 * 256 + b 0 * 65536 : Nat) : Int)
    | .littleEndian => .ok ((b 0 + b 1 * 256 + b 2 * 65536 : Nat) : Int)
  else if length = 4 then
    match order with
    | .bigEndian =>
        .ok (toSigned 32 (b 0 * 16777216 + b 1 * 65536 + b 2 * 256 + b 3))
    | .littleEndian =>
        .ok (toSigned 32 (b 3 * 16777216 + b 2 * 65536 + b 1 * 256 + b 0))
  else if length = 8 then
    match order with
    | .bigEndian =>
        .ok (toSigned 64 (b 0 * 72057594037927936 + b 1 * 281474976710656 +
          b 2 * 1099511627776 + b 3 * 4294967296 + b 4 * 16777216 +
          b 5 * 65536 + b 6 * 256 + b 7))
    | .littleEndian =>
        .ok (toSigned 64 (b 7 * 72057594037927936 + b 6 * 281474976710656 +
          b 5 * 1099511627776 + b 4 * 4294967296 + b 3 * 16777216 +
          b 2 * 65536 + b 1 * 256 + b 0))
  else
    .error (.unsupportedLengthFieldLength length)

/-- `failOnNegativeLengthField`: drop `lengthFieldEndOffset` bytes, then
panic with the negative-length-field error. -/
def failOnNegativeLengthField (this : EncoderData) (frameLength : Int)
    (lengthFieldEndOffset : Int) :
    Except DecodeError (Option (List Nat)) × EncoderData :=
  (.error (.negativeLengthField frameLength),
    { this with inBuf := this.inBuf.drop lengthFieldEndOffset.toNat })

/-- `failOnFrameLengthLessThanInitialBytesToStrip`: drop `frameLength` bytes,
then panic. -/
def failOnFrameLengthLessThanInitialBytesToStrip (this : EncoderData)
    (frameLength : Int) (initialBytesToStrip : Int) :
    Except DecodeError (Option (List Nat)) × EncoderData :=
  (.error (.frameLengthLessThanInitialBytesToStrip frameLength initialBytesToStrip),
    { this with inBuf := this.inBuf.drop frameLength.toNat })

/-- `exceededFrameLength`: `discard = frameLength - in.Len()`; when negative
the whole oversized frame is buffered and dropped at once, otherwise the
decoder enters discarding mode, records `bytesToDiscard = discard` and drops
everything buffered; in both cases `failIfNecessary(true)` runs. -/
def exceededFrameLength (this : EncoderData) (frameLength : Int) : EncoderData :=
  let discard := frameLength - (this.inBuf.length : Int)
  let this := { this with tooLongFrameLength := frameLength }
  let this :=
    if discard < 0 then
      { this with inBuf := this.inBuf.drop frameLength.toNat }
    else
      { this with discardingTooLongFrame := true, bytesToDiscard := discard,
                  inBuf := [] }
  failIfNecessary this true

/-- The single-frame extraction step `decode`.  Returns `.ok none` for the
source's `nil` (half packet / oversized frame), `.ok (some buff)` for an
extracted frame, `.error e` for a panic, paired with the post-step state. -/
def decode (this : EncoderData) :
    Except DecodeError (Option (List Nat)) × EncoderData :=
  let this :=
    if this.discardingTooLongFrame then discardingTooLongFrameFunc this else this
  if (this.inBuf.length : Int) < this.lengthFieldOffset then
    (.ok none, this)
  else
    let actualLengthFieldOffset := this.lengthFieldOffset
    match getUnadjustedFrameLength this.inBuf actualLengthFieldOffset
        this.lengthFieldLength this.byteOrder with
    | .error e => (.error e, this)
    | .ok frameLength0 =>
      if frameLength0 < 0 then
        failOnNegativeLengthField this frameLength0 this.lengthFieldEndOffset
      else
        let frameLength :=
          frameLength0 + this.lengthAdjustment + this.lengthFieldEndOffset
        if frameLength > this.maxFrameLength then
          (.ok none, exceededFrameLength this frameLength)
        else if (this.inBuf.length : Int) < frameLength then
          (.ok none, this)
        else if this.initialBytesToStrip > frameLength then
          failOnFrameLengthLessThanInitialBytesToStrip this frameLength
            this.initialBytesToStrip
        else
          let strip := this.initialBytesToStrip.toNat
          let actualFrameLength := (frameLength - this.initialBytesToStrip).toNat
          let buff := (this.inBuf.drop strip).take actualFrameLength
          (.ok (some buff),
            { this with inBuf := this.inBuf.drop (strip + actualFrameLength) })

/-- The `for` loop of `Decode`, made total with explicit fuel: `none` means
the fuel ran out before the loop finished (the Go loop runs one `decode` per
iteration and stops at the first `nil`; a panic propagates out). -/
def decodeLoop : Nat → EncoderData → List (List Nat) →
    Option (Except DecodeError (List (List Nat)) × EncoderData)
  | 0, _, _ => none
  | fuel + 1, this, acc =>
    match decode this with
    | (.error e, this') => some (.error e, this')
    | (.ok none, this') => some (.ok acc, this')
    | (.ok (some arr), this') => decodeLoop fuel this' (acc ++ [arr])

/-- `Decode`: append the chunk to the accumulation buffer, then loop. -/
def Decode (this : EncoderData) (buff : List Nat) (fuel : Nat) :
    Option (Except DecodeError (List (List Nat)) × EncoderData) :=
  decodeLoop fuel { this with inBuf := this.inBuf ++ buff } []

/-- Feed a sequence of chunks with successive `Decode` calls, concatenating
the returned frame lists; `none` if any call panics or runs out of fuel. -/
def decodeAll (fuel : Nat) : EncoderData → List (List Nat) →
    Option (List (List Nat) × EncoderData)
  | this, [] => some ([], this)
  | this, c :: cs =>
    match Decode this c fuel with
    | some (.ok out, this') =>
        (decodeAll fuel this' cs).map (fun r => (out ++ r.1, r.2))
    | _ => none

end Zcode

namespace Zcode

/-- If the fueled loop finishes within `m` steps it finishes with the same
result given any larger fuel. -/
theorem decodeLoop_mono : ∀ (m n : Nat), m ≤ n →
    ∀ (st : EncoderData) (acc : List (List Nat))
      (r : Except DecodeError (List (List Nat)) × EncoderData),
      decodeLoop m st acc = some r → decodeLoop n st acc = some r := by
  intro m
  induction m with
  | zero =>
      intro n _ st acc r h
      simp [decodeLoop] at h
  | succ k ih =>
      intro n hmn st acc r h
      obtain ⟨n', rfl⟩ : ∃ n', n = n' + 1 := ⟨n - 1, by omega⟩
      rcases hd : decode st with ⟨res, st'⟩
      rcases res with e | arr
      · simp only [decodeLoop, hd] at h ⊢
        exact h
      · rcases arr with _ | arr
        · simp only [decodeLoop, hd] at h ⊢
          exact h
        · simp only [decodeLoop, hd] at h ⊢
          exact ih n' (by omega) st' (acc ++ [arr]) r h

end Zcode

namespace Zcode

/-- C1: the claim that any chunking of a well-formed stream yields the same
decoded payloads as one whole-stream call fails on the code.  With the valid
configuration `maxFrameLength = 100`, `lengthFieldOffset = 0`,
`lengthFieldLength = 2`, `lengthAdjustment = -1`, `initialBytesToStrip = 0`
and the single well-formed 14-byte frame `[0,13,1,...,12]` (raw length 13,
frame length 14), feeding the whole stream returns that frame, but
one-byte-at-a-time delivery returns the bogus payload `[0]` from the very
first byte: `decode` reads the 2-byte length field although only 1 byte is
buffered (the second byte reads as 0), computes frame length 1 and extracts
it. -/
theorem decode_chunking_divergence :
    ((decodeAll 3 (NewLengthFieldFrameDecoder 100 0 2 (-1) 0)
        [[0, 13, 1, 2, 3, 4, 5, 6, 7, 8, 9, 10, 11, 12]]).map Prod.fst
      = some [[0, 13, 1, 2, 3, 4, 5, 6, 7, 8, 9, 10, 11, 12]]) ∧
    ((decodeAll 3 (NewLengthFieldFrameDecoder 100 0 2 (-1) 0)
        [[0], [13], [1], [2], [3], [4], [5], [6], [7], [8], [9], [10], [11],
         [12]]).map Prod.fst
      = some [[0]]) :=
  ⟨by decide, by decide⟩

/-- C2: bytes of an oversized frame do appear in the output and the following
well-formed frame is destroyed.  Configuration `maxFrameLength = 5`,
`lengthFieldOffset = 0`, `lengthFieldLength = 1`, no adjustment or strip.
The first chunk starts an oversized frame (raw length 9, frame length 10,
7 bytes still to discard); the second chunk carries the frame's remaining 7
bytes followed by the well-formed frame `[2,7,8]`.  Because the discarding
step drops only the hard-coded 2 bytes, the decoder then parses the
oversized frame's remaining zero bytes as new frames: the result is
`[[0],[0]]` — two payloads made of the oversized frame's bytes — and
`[2,7,8]` is never produced. -/
theorem oversized_frame_bytes_leak :
    (decodeAll 6 (NewLengthFieldFrameDecoder 5 0 1 0 0)
        [[9, 0, 0], [0, 0, 0, 0, 0, 0, 0, 2, 7, 8]]).map Prod.fst
      = some [[0], [0]] := by
  decide

/-- C3: the discarding step does not remove `min(bytesToDiscard, buffered)`
bytes; it removes the hard-coded constant 2 (`localBytesToDiscard = 2` in
the source).  With `bytesToDiscard = 7` and 10 buffered bytes the claim
predicts 7 bytes dropped and `bytesToDiscard = 0` with the mode cleared; the
code drops 2, leaves `bytesToDiscard = 5` and stays in discarding mode.
With `bytesToDiscard = 1` and 2 buffered bytes the claim predicts clearing
at 0; the code drives `bytesToDiscard` to `-1`, so the mode is never
cleared. -/
theorem discarding_step_drops_constant_two :
    (discardingTooLongFrameFunc
        { NewLengthFieldFrameDecoder 5 0 1 0 0 with
            discardingTooLongFrame := true, bytesToDiscard := 7,
            tooLongFrameLength := 10,
            inBuf := [0, 0, 0, 0, 0, 0, 0, 2, 7, 8] }
      = { NewLengthFieldFrameDecoder 5 0 1 0 0 with
            discardingTooLongFrame := true, bytesToDiscard := 5,
            tooLongFrameLength := 10,
            inBuf := [0, 0, 0, 0, 0, 2, 7, 8] }) ∧
    (discardingTooLongFrameFunc
        { NewLengthFieldFrameDecoder 5 0 1 0 0 with
            discardingTooLongFrame := true, bytesToDiscard := 1,
            tooLongFrameLength := 6, inBuf := [0, 0] }
      = { NewLengthFieldFrameDecoder 5 0 1 0 0 with
            discardingTooLongFrame := true, bytesToDiscard := -1,
            tooLongFrameLength := 6, inBuf := [] }) :=
  ⟨by decide, by decide⟩

/-- C4: a buffer shorter than `lengthFieldOffset` is indeed reported as
incomplete with the state untouched (first conjunct), but for a byte count
between `lengthFieldOffset` and `lengthFieldOffset + lengthFieldLength` the
code does not wait: it reads the length field beyond the buffered bytes.
Feeding the single byte `0x80 = 128` to a fresh decoder with a 2-byte length
field at offset 0 reads the field as `0x8000 = -32768`, drops the buffered
byte and raises the negative-length panic instead of returning an empty
list with the byte intact. -/
theorem partial_length_field_not_incomplete :
    (decode { NewLengthFieldFrameDecoder 100 2 2 0 0 with inBuf := [7] }
      = (.ok none, { NewLengthFieldFrameDecoder 100 2 2 0 0 with inBuf := [7] })) ∧
    (Decode (NewLengthFieldFrameDecoder 100 0 2 0 0) [128] 2
      = some (.error (.negativeLengthField (-32768)),
          NewLengthFieldFrameDecoder 100 0 2 0 0)) :=
  ⟨rfl, rfl⟩

/-- C5: no too-long-frame error is ever signaled, because `fail` is a no-op
(its body is commented out in the source).  `fail` returns the state
unchanged, and feeding a fully buffered oversized frame (raw length 9, frame
length 10 > maxFrameLength 5) returns the plain result `.ok []` — no error
value — both with `failFast = true` and with `failFast = false`. -/
theorem too_long_frame_error_not_signaled :
    (∀ (st : EncoderData) (frameLength : Int), fail st frameLength = st) ∧
    (Decode { NewLengthFieldFrameDecoder 5 0 1 0 0 with failFast := true }
        [9, 1, 2, 3, 4, 5, 6, 7, 8, 9] 2
      = some (.ok [],
          { NewLengthFieldFrameDecoder 5 0 1 0 0 with failFast := true })) ∧
    (Decode (NewLengthFieldFrameDecoder 5 0 1 0 0)
        [9, 1, 2, 3, 4, 5, 6, 7, 8, 9] 2
      = some (.ok [], NewLengthFieldFrameDecoder 5 0 1 0 0)) :=
  ⟨fun _ _ => rfl, rfl, rfl⟩

/-- C9: `Decode` does not terminate on a zero-length frame.  With
`lengthFieldLength = 1`, `lengthAdjustment = -1` and `initialBytesToStrip
= 0`, the byte `0` yields `frameLength = 0 + (-1) + 1 = 0`: `decode`
returns the empty payload without consuming anything and with the state
unchanged, so the extraction loop of `Decode` repeats the identical step
forever — the fueled loop returns `none` (fuel exhausted) for every fuel. -/
theorem zero_length_frame_nontermination :
    (decode { NewLengthFieldFrameDecoder 10 0 1 (-1) 0 with inBuf := [0] }
      = (.ok (some []),
         { NewLengthFieldFrameDecoder 10 0 1 (-1) 0 with inBuf := [0] })) ∧
    (∀ (fuel : Nat) (acc : List (List Nat)),
      decodeLoop fuel
        { NewLengthFieldFrameDecoder 10 0 1 (-1) 0 with inBuf := [0] } acc
      = none) ∧
    (∀ fuel : Nat,
      Decode (NewLengthFieldFrameDecoder 10 0 1 (-1) 0) [0] fuel = none) := by
  have hstep : decode { NewLengthFieldFrameDecoder 10 0 1 (-1) 0 with inBuf := [0] }
      = (.ok (some []),
         { NewLengthFieldFrameDecoder 10 0 1 (-1) 0 with inBuf := [0] }) := rfl
  have key : ∀ (fuel : Nat) (acc : List (List Nat)),
      decodeLoop fuel
        { NewLengthFieldFrameDecoder 10 0 1 (-1) 0 with inBuf := [0] } acc
      = none := by
    intro fuel
    induction fuel with
    | zero => intro acc; rfl
    | succ k ih =>
        intro acc
        simp only [decodeLoop, hstep]
        exact ih (acc ++ [[]])
  exact ⟨hstep, key, fun fuel => key fuel []⟩

end Zcode

namespace Zcode

/-- C6: the documented `"HELLO, WORLD"` example.  With a 2-byte big-endian
length field at offset 0 holding `0x000C = 12`, `lengthAdjustment = 0` and
`maxFrameLength = 100`, feeding the 14-byte stream `0x00 0x0C` ++
`"HELLO, WORLD"` (ASCII) in one call returns exactly one payload: the full
14-byte frame when `initialBytesToStrip = 0`, and the 12 bytes
`"HELLO, WORLD"` when `initialBytesToStrip = 2`.  Any fuel of at least 2
covers the loop (one extraction, one half-packet stop). -/
theorem hello_world_example (fuel : Nat) (h : 2 ≤ fuel) :
    (∃ st', Decode (NewLengthFieldFrameDecoder 100 0 2 0 0)
        [0, 12, 72, 69, 76, 76, 79, 44, 32, 87, 79, 82, 76, 68] fuel
      = some (.ok [[0, 12, 72, 69, 76, 76, 79, 44, 32, 87, 79, 82, 76, 68]],
          st')) ∧
    (∃ st', Decode (NewLengthFieldFrameDecoder 100 0 2 0 2)
        [0, 12, 72, 69, 76, 76, 79, 44, 32, 87, 79, 82, 76, 68] fuel
      = some (.ok [[72, 69, 76, 76, 79, 44, 32, 87, 79, 82, 76, 68]], st')) := by
  obtain ⟨k, rfl⟩ : ∃ k, fuel = 2 + k := ⟨fuel - 2, by omega⟩
  constructor
  · exact ⟨NewLengthFieldFrameDecoder 100 0 2 0 0,
      decodeLoop_mono 2 (2 + k) (by omega) _ _ _ rfl⟩
  · exact ⟨NewLengthFieldFrameDecoder 100 0 2 0 2,
      decodeLoop_mono 2 (2 + k) (by omega) _ _ _ rfl⟩

/-- Witness for `hello_world_example` at fuel 2. -/
theorem hello_world_example_witness :
    (∃ st', Decode (NewLengthFieldFrameDecoder 100 0 2 0 0)
        [0, 12, 72, 69, 76, 76, 79, 44, 32, 87, 79, 82, 76, 68] 2
      = some (.ok [[0, 12, 72, 69, 76, 76, 79, 44, 32, 87, 79, 82, 76, 68]],
          st')) ∧
    (∃ st', Decode (NewLengthFieldFrameDecoder 100 0 2 0 2)
        [0, 12, 72, 69, 76, 76, 79, 44, 32, 87, 79, 82, 76, 68] 2
      = some (.ok [[72, 69, 76, 76, 79, 44, 32, 87, 79, 82, 76, 68]], st')) :=
  hello_world_example 2 (by decide)

end Zcode

namespace Zcode

/-- C7: whenever the decoder is not discarding, the length field lies within
the buffered bytes and its raw value `raw` is negative, `decode` drops
exactly `lengthFieldEndOffset` bytes from the front of the buffer, changes
nothing else, and raises the negative-length-field error — for any state, in
particular for either value of `failFast`. -/
theorem decode_negative_length_field (st : EncoderData) (raw : Int)
    (hmode : st.discardingTooLongFrame = false)
    (hend : st.lengthFieldEndOffset = st.lengthFieldOffset + st.lengthFieldLength)
    (hflpos : 0 < st.lengthFieldLength)
    (hread : st.lengthFieldEndOffset ≤ (st.inBuf.length : Int))
    (hraw : getUnadjustedFrameLength st.inBuf st.lengthFieldOffset
        st.lengthFieldLength st.byteOrder = .ok raw)
    (hneg : raw < 0) :
    decode st = (.error (.negativeLengthField raw),
        { st with inBuf := st.inBuf.drop st.lengthFieldEndOffset.toNat }) ∧
    (st.inBuf.drop st.lengthFieldEndOffset.toNat).length
        + st.lengthFieldEndOffset.toNat = st.inBuf.length := by
  have hoff : ¬ ((st.inBuf.length : Int) < st.lengthFieldOffset) := by omega
  constructor
  · simp only [decode, hmode, Bool.false_eq_true, if_false, hraw, if_neg hoff,
      if_pos hneg, failOnNegativeLengthField]
  · have hle : st.lengthFieldEndOffset.toNat ≤ st.inBuf.length := by omega
    simp only [List.length_drop]
    omega

/-- Witness for `decode_negative_length_field`: a fresh decoder with a
2-byte big-endian length field at offset 0 and buffer `[0x80, 0x00, 5]`
reads the raw value `-32768`, drops the two length-field bytes and raises
the error. -/
theorem decode_negative_length_field_witness :
    decode { NewLengthFieldFrameDecoder 100 0 2 0 0 with inBuf := [128, 0, 5] }
      = (.error (.negativeLengthField (-32768)),
         { NewLengthFieldFrameDecoder 100 0 2 0 0 with inBuf := [5] }) ∧
    ([5] : List Nat).length + 2 = 3 :=
  decode_negative_length_field
    { NewLengthFieldFrameDecoder 100 0 2 0 0 with inBuf := [128, 0, 5] }
    (-32768) rfl rfl (by decide) (by decide) rfl (by decide)

/-- C8: when the decoder is not discarding, the length field lies within the
buffered bytes, the raw value is non-negative, the computed frame length is
within `maxFrameLength` but exceeds the buffered byte count, `decode`
reports incomplete (`none`) and returns the state completely unchanged, so
the step is retryable. -/
theorem decode_half_packet_unchanged (st : EncoderData) (raw : Int)
    (hmode : st.discardingTooLongFrame = false)
    (hend : st.lengthFieldEndOffset = st.lengthFieldOffset + st.lengthFieldLength)
    (hflpos : 0 < st.lengthFieldLength)
    (hread : st.lengthFieldEndOffset ≤ (st.inBuf.length : Int))
    (hraw : getUnadjustedFrameLength st.inBuf st.lengthFieldOffset
        st.lengthFieldLength st.byteOrder = .ok raw)
    (hnonneg : 0 ≤ raw)
    (hmax : raw + st.lengthAdjustment + st.lengthFieldEndOffset
        ≤ st.maxFrameLength)
    (hhalf : (st.inBuf.length : Int)
        < raw + st.lengthAdjustment + st.lengthFieldEndOffset) :
    decode st = (.ok none, st) := by
  have hoff : ¬ ((st.inBuf.length : Int) < st.lengthFieldOffset) := by omega
  have hnneg : ¬ (raw < 0) := by omega
  have hnmax : ¬ (raw + st.lengthAdjustment + st.lengthFieldEndOffset
      > st.maxFrameLength) := by omega
  simp only [decode, hmode, Bool.false_eq_true, if_false, hraw, if_neg hoff,
    if_neg hnneg, if_neg hnmax, if_pos hhalf]

/-- Witness for `decode_half_packet_unchanged`: 3 buffered bytes `[0,12,5]`
with a 2-byte length field reading 12 give a frame length of 14 > 3, and
`decode` leaves the state untouched. -/
theorem decode_half_packet_unchanged_witness :
    decode { NewLengthFieldFrameDecoder 100 0 2 0 0 with inBuf := [0, 12, 5] }
      = (.ok none,
         { NewLengthFieldFrameDecoder 100 0 2 0 0 with inBuf := [0, 12, 5] }) :=
  decode_half_packet_unchanged
    { NewLengthFieldFrameDecoder 100 0 2 0 0 with inBuf := [0, 12, 5] }
    12 rfl rfl (by decide) (by decide) rfl (by decide) (by decide) (by decide)

end Zcode

namespace Zcode

/-- C10: the raw length-field value is read as a signed two's-complement
integer for widths 2, 4 and 8 — any big-endian field whose first byte has
its most significant bit set (for example `0x8000`) comes out negative, as
`unsigned value - 2^width` — while widths 1 and 3 are composed from unsigned
bytes and are never negative; a negative raw value then takes `decode`'s
negative-length-field error path instead of being treated as a large
unsigned length (last conjunct, at the `0x8000` example). -/
theorem length_field_signedness :
    (getUnadjustedFrameLength [128, 0] 0 2 .bigEndian = .ok (-32768)) ∧
    (∀ b0 b1 : Nat, b0 < 256 → b1 < 256 → 128 ≤ b0 →
      getUnadjustedFrameLength [b0, b1] 0 2 .bigEndian
          = .ok ((b0 * 256 + b1 : Int) - 65536)
        ∧ (b0 * 256 + b1 : Int) - 65536 < 0) ∧
    (∀ b0 b1 b2 b3 : Nat, b0 < 256 → b1 < 256 → b2 < 256 → b3 < 256 →
      128 ≤ b0 →
      ∃ r, getUnadjustedFrameLength [b0, b1, b2, b3] 0 4 .bigEndian = .ok r
        ∧ r < 0) ∧
    (∀ b0 b1 b2 b3 b4 b5 b6 b7 : Nat,
      b0 < 256 → b1 < 256 → b2 < 256 → b3 < 256 → b4 < 256 → b5 < 256 →
      b6 < 256 → b7 < 256 → 128 ≤ b0 →
      ∃ r, getUnadjustedFrameLength [b0, b1, b2, b3, b4, b5, b6, b7] 0 8
          .bigEndian = .ok r ∧ r < 0) ∧
    (∀ (b0 : Nat) (ord : ByteOrder),
      getUnadjustedFrameLength [b0] 0 1 ord = .ok (b0 : Int)
        ∧ (0 : Int) ≤ (b0 : Int)) ∧
    (∀ (b0 b1 b2 : Nat) (ord : ByteOrder),
      ∃ r, getUnadjustedFrameLength [b0, b1, b2] 0 3 ord = .ok r ∧ 0 ≤ r) ∧
    (decode { NewLengthFieldFrameDecoder 100 0 2 0 0 with inBuf := [128, 0] }
      = (.error (.negativeLengthField (-32768)),
         NewLengthFieldFrameDecoder 100 0 2 0 0)) := by
  refine ⟨rfl, ?_, ?_, ?_, ?_, ?_, rfl⟩
  · intro b0 b1 h0 h1 hm
    constructor
    · show Except.ok (toSigned 16 (b0 * 256 + b1)) = _
      simp only [toSigned]
      rw [if_neg (by norm_num; omega)]
      congr 1
    · omega
  · intro b0 b1 b2 b3 h0 h1 h2 h3 hm
    refine ⟨toSigned 32 (b0 * 16777216 + b1 * 65536 + b2 * 256 + b3),
      rfl, ?_⟩
    simp only [toSigned]
    rw [if_neg (by norm_num; omega)]
    have : (b0 * 16777216 + b1 * 65536 + b2 * 256 + b3 : Nat) < 4294967296 := by
      omega
    norm_num
    omega
  · intro b0 b1 b2 b3 b4 b5 b6 b7 h0 h1 h2 h3 h4 h5 h6 h7 hm
    refine ⟨toSigned 64 (b0 * 72057594037927936 + b1 * 281474976710656 +
      b2 * 1099511627776 + b3 * 4294967296 + b4 * 16777216 + b5 * 65536 +
      b6 * 256 + b7), rfl, ?_⟩
    simp only [toSigned]
    rw [if_neg (by norm_num; omega)]
    norm_num
    omega
  · intro b0 ord
    cases ord <;> exact ⟨rfl, by positivity⟩
  · intro b0 b1 b2 ord
    cases ord
    · exact ⟨_, rfl, by positivity⟩
    · exact ⟨_, rfl, by positivity⟩

/-- Witness for `length_field_signedness` at concrete bytes. -/
theorem length_field_signedness_witness :
    (getUnadjustedFrameLength [200, 1] 0 2 .bigEndian
        = .ok ((200 * 256 + 1 : Int) - 65536)
      ∧ (200 * 256 + 1 : Int) - 65536 < 0) ∧
    (∃ r, getUnadjustedFrameLength [200, 1, 2, 3] 0 4 .bigEndian = .ok r
      ∧ r < 0) ∧
    (∃ r, getUnadjustedFrameLength [200, 1, 2, 3, 4, 5, 6, 7] 0 8 .bigEndian
        = .ok r ∧ r < 0) ∧
    (getUnadjustedFrameLength [200] 0 1 .littleEndian = .ok (200 : Int)
      ∧ (0 : Int) ≤ (200 : Int)) ∧
    (∃ r, getUnadjustedFrameLength [200, 1, 2] 0 3 .bigEndian = .ok r
      ∧ 0 ≤ r) :=
  ⟨length_field_signedness.2.1 200 1 (by decide) (by decide) (by decide),
   length_field_signedness.2.2.1 200 1 2 3 (by decide) (by decide) (by decide)
     (by decide) (by decide),
   length_field_signedness.2.2.2.1 200 1 2 3 4 5 6 7 (by decide) (by decide)
     (by decide) (by decide) (by decide) (by decide) (by decide) (by decide)
     (by decide),
   length_field_signedness.2.2.2.2.1 200 .littleEndian,
   length_field_signedness.2.2.2.2.2.1 200 1 2 .bigEndian⟩

end Zcode
